import Mathlib

/-
Verification development for the realtime voice subsystem of
SFL-NeuroPersona-Playground.  The definitions below are a shallow embedding
of src/components/VoiceInterface.tsx together with the live-session
constructor of src/components/InputArea.tsx.  Audio time and sample values
are modelled as rationals; the JavaScript 16-bit store conversion
(truncation toward zero, wrap modulo 2^16, signed reinterpretation) is
modelled exactly.
-/

/-! ### PCM codec (createPcmBlob, decodeAudioData, lines 310-349) -/

/-- Clamping step of createPcmBlob, line 313:
the expression Math.max(-1, Math.min(1, x)). -/
def clampSample (x : ℚ) : ℚ := max (-1) (min 1 x)

/-- JavaScript number-to-integer truncation (toward zero), the first step of
the ToInt16 conversion performed by an Int16Array store. -/
def truncJS (q : ℚ) : ℤ := if q < 0 then ⌈q⌉ else ⌊q⌋

/-- JavaScript ToInt16: truncate toward zero, reduce modulo 2^16 to a
non-negative residue, then reinterpret the high half as negative.  This is
what the store int16[i] = v performs on line 314. -/
def toInt16 (q : ℚ) : ℤ :=
  let n := truncJS q % 65536
  if 32768 ≤ n then n - 65536 else n

/-- One sample of createPcmBlob, lines 313-314: clamp to [-1, 1], scale the
negative half range by 0x8000 and the non-negative half range by 0x7FFF,
store into an Int16Array slot. -/
def encodeSample (x : ℚ) : ℤ :=
  let s := clampSample x
  toInt16 (if s < 0 then s * 32768 else s * 32767)

/-- One sample of decodeAudioData, line 345: float32[i] = data16[i] / 32768. -/
def decodeSample (n : ℤ) : ℚ := (n : ℚ) / 32768

/-- Little-endian byte pair of one Int16Array slot, as exposed by
new Uint8Array(int16.buffer) on line 317.  The stored value n is first
reduced to its unsigned 16-bit representative. -/
def int16ToBytes (n : ℤ) : List ℤ :=
  let u := n % 65536
  [u % 256, u / 256]

/-- createPcmBlob, lines 310-320, viewed at the byte level: every input
sample is encoded to a signed 16-bit value and the Int16Array buffer is
read out as a little-endian byte sequence.  (The base64 text hop done by
uint8ArrayToBase64 / base64ToUint8Array is an exact byte-for-byte round
trip and is elided.) -/
def createPcmBlob (xs : List ℚ) : List ℤ := (xs.map (fun x => int16ToBytes (encodeSample x))).flatten

/-- Reinterpretation of two little-endian bytes as one signed 16-bit value,
as performed by new Int16Array(data.buffer) on line 343. -/
def bytesToInt16 (lo hi : ℤ) : ℤ :=
  let u := lo + 256 * hi
  if 32768 ≤ u then u - 65536 else u

/-- decodeAudioData, lines 340-349, on a raw byte list: pair the bytes into
signed 16-bit values and divide each by 32768.  The Int16Array constructor
throws a RangeError when the buffer length is odd, modelled as none. -/
def bytesToFloats : List ℤ → Option (List ℚ)
  | [] => some []
  | [_] => none
  | lo :: hi :: rest => (bytesToFloats rest).map (fun r => (bytesToInt16 lo hi : ℚ) / 32768 :: r)

/-! ### Component state (the refs and useState hooks of VoiceInterface) -/

/-- Connection status useState hook, line 18. -/
inductive Status
  | connecting
  | connected
  | error
deriving DecidableEq

/-- Derived voice activity useState hook, line 20. -/
inductive Activity
  | listening
  | speaking
  | idle
deriving DecidableEq

/-- Transcript source tag, line 23. -/
inductive Source
  | user
  | ai
deriving DecidableEq

/-- Transcript accumulator value, line 23. -/
structure Transcript where
  source : Source
  text : String
deriving DecidableEq

/-- The mutable state of one VoiceInterface component instance: the React
state hooks (lines 18-23) and the refs (lines 26-40), plus observation
counters for capture frames.  schedule records each scheduled buffer as a
(start time, duration) pair; sources is the cardinality of sourcesRef;
openConnections counts live transport connections that were opened by
connectLiveSession and never closed; capturedMuted is the value of isMuted
captured by the scriptProcessor.onaudioprocess closure when startSession
installed it (the effect deps on line 49 are [active, mode], so the handler
is never re-installed when isMuted changes). -/
structure VoiceIfaceState where
  status : Status
  isMuted : Bool
  voiceState : Activity
  transcript : Option Transcript
  nextStartTime : ℚ
  sources : Nat
  schedule : List (ℚ × ℚ)
  streamActive : Bool
  inputNodeConnected : Bool
  audioCtxOpen : Bool
  animationRunning : Bool
  sessionRefSet : Bool
  openConnections : Nat
  capturedMuted : Option Bool
  analyzedFrames : Nat
  forwardedFrames : Nat
deriving DecidableEq

/-- Initial hook and ref values, lines 18-40. -/
def initialState : VoiceIfaceState where
  status := .connecting
  isMuted := false
  voiceState := .idle
  transcript := none
  nextStartTime := 0
  sources := 0
  schedule := []
  streamActive := false
  inputNodeConnected := false
  audioCtxOpen := false
  animationRunning := false
  sessionRefSet := false
  openConnections := 0
  capturedMuted := none
  analyzedFrames := 0
  forwardedFrames := 0

/-- startSession, lines 61-130, success path: set status to connecting,
open the output audio context, acquire the microphone stream, install the
onaudioprocess handler (capturing the current isMuted value in its
closure), start the visualization loop, and open a live connection via
connectLiveSession (InputArea.tsx lines 428-443).  Nothing else in the
function touches isMuted, nextStartTimeRef, sourcesRef or the schedule. -/
def startSession (s : VoiceIfaceState) : VoiceIfaceState :=
  { s with status := .connecting
           audioCtxOpen := true
           streamActive := true
           inputNodeConnected := true
           capturedMuted := some s.isMuted
           animationRunning := true
           sessionRefSet := true
           openConnections := s.openConnections + 1 }

/-- stopSession, lines 132-152, modelled action for action: cancel the
animation frame, clear the transcript timeout, stop the stream tracks,
disconnect the script processor, close the output audio context, null out
sessionRef, and reset the status, voiceState and transcript hooks.  The
function does NOT call close() on the live session (openConnections is
unchanged), does NOT stop or clear sourcesRef (sources and schedule are
unchanged), does NOT reset nextStartTimeRef, and does NOT touch isMuted. -/
def stopSession (s : VoiceIfaceState) : VoiceIfaceState :=
  { s with animationRunning := false
           streamActive := false
           inputNodeConnected := false
           audioCtxOpen := false
           sessionRefSet := false
           status := .connecting
           voiceState := .idle
           transcript := none }

/-- Mute button onClick, line 431: setIsMuted(!isMuted).  The captured value
inside the installed onaudioprocess closure is not re-installed. -/
def toggleMute (s : VoiceIfaceState) : VoiceIfaceState :=
  { s with isMuted := !s.isMuted }

/-- onerror callback of the live session, lines 120-123: setStatus(error). -/
def onSessionError (s : VoiceIfaceState) : VoiceIfaceState :=
  { s with status := .error }

/-- onopen callback of the live session, lines 110-113. -/
def onSessionOpen (s : VoiceIfaceState) : VoiceIfaceState :=
  { s with status := .connected }

/-- scriptProcessor.onaudioprocess, lines 90-97, for one capture frame.
The audio graph is Source -> Analyser -> ScriptProcessor (lines 100-102),
so the input analyser sees every frame the processor sees.  The guard on
line 91 reads the isMuted value captured by the closure when the handler
was installed, not the current hook value; when that captured value is
false the frame is encoded and forwarded to the transport session. -/
def onaudioprocess (s : VoiceIfaceState) : VoiceIfaceState :=
  if s.streamActive && s.inputNodeConnected then
    let s1 := { s with analyzedFrames := s.analyzedFrames + 1 }
    match s1.capturedMuted with
    | some false => { s1 with forwardedFrames := s1.forwardedFrames + 1 }
    | _ => s1
  else s

/-- playAudio, lines 183-201: bump nextStartTimeRef up to now when it lags,
start the buffer source at the (possibly bumped) cursor, advance the cursor
by the buffer duration, and add the source to sourcesRef. -/
def playAudio (now dur : ℚ) (s : VoiceIfaceState) : VoiceIfaceState :=
  let start := if s.nextStartTime < now then now else s.nextStartTime
  { s with nextStartTime := start + dur
           sources := s.sources + 1
           schedule := s.schedule ++ [(start, dur)] }

/-- onended callback registered on line 200: the finished source is removed
from sourcesRef. -/
def onEnded (s : VoiceIfaceState) : VoiceIfaceState :=
  { s with sources := s.sources - 1 }

/-- Fold of playAudio over a sequence of (arrival time, duration) chunk
events, the repeated effect of audio messages on the playback refs. -/
def runChunks (evs : List (ℚ × ℚ)) (s : VoiceIfaceState) : VoiceIfaceState :=
  evs.foldl (fun t e => playAudio e.1 e.2 t) s

/-- Ordering between two scheduled buffers: the first ends no later than
the second starts. -/
def ChunkLe (a b : ℚ × ℚ) : Prop := a.1 + a.2 ≤ b.1

/-! ### Server message handling (handleServerMessage, lines 154-181) -/

/-- JavaScript truthiness of an optional string field: undefined and the
empty string are falsy. -/
def jsTruthy : Option String → Bool
  | none => false
  | some t => !(t == "")

/-- Transcription update of handleServerMessage, lines 166-180: an output
delta wins over an input delta; an applied delta appends to the previous
text when the previous source matches and otherwise starts from the empty
string; with neither field truthy the transcript is left unchanged. -/
def handleTranscription (outT inT : Option String) (prev : Option Transcript) : Option Transcript :=
  if jsTruthy outT then
    some { source := .ai
           text := (match prev with
                    | some p => if p.source == Source.ai then p.text else ""
                    | none => "") ++ outT.getD "" }
  else if jsTruthy inT then
    some { source := .user
           text := (match prev with
                    | some p => if p.source == Source.user then p.text else ""
                    | none => "") ++ inT.getD "" }
  else prev

/-- One inbound live-session message: the decoded bytes of the first inline
audio part when present and truthy, plus the two optional transcription
delta fields. -/
structure ServerMessage where
  inlineBytes : Option (List ℤ)
  outputText : Option String
  inputText : Option String

/-- handleServerMessage, lines 154-181, at playback sample rate 24000
(line 341): decode and schedule an audio payload when present, then apply
the transcription deltas.  The function performs no check that the session
is still active; a RangeError thrown by the Int16Array constructor on an
odd-length payload propagates out of the handler, and the onmessage
callback on lines 114-116 neither awaits nor catches it. -/
def handleServerMessage (now : ℚ) (msg : ServerMessage) (s : VoiceIfaceState) :
    Except String VoiceIfaceState :=
  match msg.inlineBytes with
  | none =>
    Except.ok { s with transcript := handleTranscription msg.outputText msg.inputText s.transcript }
  | some bytes =>
    match bytesToFloats bytes with
    | none => Except.error "RangeError"
    | some floats =>
      let s1 := playAudio now ((floats.length : ℚ) / 24000) s
      Except.ok { s1 with transcript := handleTranscription msg.outputText msg.inputText s1.transcript }

/-! ### Visualizer tick (renderVisualizer, lines 204-292) -/

/-- Activity state derivation of one visualizer tick, lines 228-230. -/
def voiceStateOf (outE inE : ℚ) : Activity :=
  if 10 < outE then .speaking else if 10 < inE then .listening else .idle

/-- One visualizer tick, lines 217-239, reduced to its state effects: the
voiceState hook is set from the two mean energies, and the returned flag is
the dominance selection of line 236 (outEnergy > 5) that picks which data
array and palette drive the drawing. -/
def renderTick (outE inE : ℚ) (s : VoiceIfaceState) : VoiceIfaceState × Bool :=
  ({ s with voiceState := voiceStateOf outE inE }, decide (5 < outE))

/-! ### Lifecycle operation sequences -/

/-- Externally triggerable lifecycle transitions of the controller: session
stop, session start, a transport error event, and the user mute toggle. -/
inductive LifecycleOp
  | stop
  | start
  | error
  | toggle
deriving DecidableEq

/-- Interpretation of one lifecycle transition on the component state. -/
def applyOp : LifecycleOp → VoiceIfaceState → VoiceIfaceState
  | .stop, s => stopSession s
  | .start, s => startSession s
  | .error, s => onSessionError s
  | .toggle, s => toggleMute s

/-- Interpretation of a sequence of lifecycle transitions. -/
def applyOps (ops : List LifecycleOp) (s : VoiceIfaceState) : VoiceIfaceState :=
  ops.foldl (fun t o => applyOp o t) s

/-! ### Helper lemmas for the PCM codec -/

theorem clampSample_bounds (x : ℚ) : -1 ≤ clampSample x ∧ clampSample x ≤ 1 := by
  unfold clampSample
  exact ⟨le_max_left _ _, max_le (by norm_num) (min_le_left _ _)⟩

theorem toInt16_id (q : ℚ) (h1 : -32768 ≤ truncJS q) (h2 : truncJS q ≤ 32767) :
    toInt16 q = truncJS q := by
  simp only [toInt16]
  split <;> omega

theorem encodeSample_neg (x : ℚ) (h : clampSample x < 0) :
    encodeSample x = ⌈clampSample x * 32768⌉ ∧
    -32768 ≤ ⌈clampSample x * 32768⌉ ∧ ⌈clampSample x * 32768⌉ ≤ 0 := by
  obtain ⟨hl, _⟩ := clampSample_bounds x
  have hq2 : clampSample x * 32768 < 0 := by nlinarith
  have htr : truncJS (clampSample x * 32768) = ⌈clampSample x * 32768⌉ := by
    unfold truncJS
    rw [if_pos hq2]
  have hlo : (-32768 : ℤ) ≤ ⌈clampSample x * 32768⌉ := by
    have h329 : ((-32769 : ℤ) : ℚ) < clampSample x * 32768 := by push_cast; nlinarith
    have := Int.lt_ceil.mpr h329
    omega
  have hhi : ⌈clampSample x * 32768⌉ ≤ 0 := Int.ceil_le.mpr (by push_cast; linarith)
  refine ⟨?_, hlo, hhi⟩
  simp only [encodeSample]
  rw [if_pos h, toInt16_id _ (by rw [htr]; exact hlo) (by rw [htr]; omega), htr]

theorem encodeSample_nonneg (x : ℚ) (h : ¬ clampSample x < 0) :
    encodeSample x = ⌊clampSample x * 32767⌋ ∧
    0 ≤ ⌊clampSample x * 32767⌋ ∧ ⌊clampSample x * 32767⌋ ≤ 32767 := by
  obtain ⟨_, hr⟩ := clampSample_bounds x
  have hs0 : 0 ≤ clampSample x := not_lt.mp h
  have hq1 : (0 : ℚ) ≤ clampSample x * 32767 := by nlinarith
  have hq2 : clampSample x * 32767 ≤ 32767 := by nlinarith
  have htr : truncJS (clampSample x * 32767) = ⌊clampSample x * 32767⌋ := by
    unfold truncJS
    rw [if_neg (not_lt.mpr hq1)]
  have hlo : (0 : ℤ) ≤ ⌊clampSample x * 32767⌋ := Int.le_floor.mpr (by push_cast; linarith)
  have hhi : ⌊clampSample x * 32767⌋ ≤ 32767 := by
    have : ⌊clampSample x * 32767⌋ < 32768 := Int.floor_lt.mpr (by push_cast; linarith)
    omega
  refine ⟨?_, hlo, hhi⟩
  simp only [encodeSample]
  rw [if_neg h, toInt16_id _ (by rw [htr]; omega) (by rw [htr]; omega), htr]

theorem encodeSample_bounds (x : ℚ) : -32768 ≤ encodeSample x ∧ encodeSample x ≤ 32767 := by
  by_cases h : clampSample x < 0
  · obtain ⟨he, h1, h2⟩ := encodeSample_neg x h
    rw [he]
    omega
  · obtain ⟨he, h1, h2⟩ := encodeSample_nonneg x h
    rw [he]
    omega

theorem roundTrip_bound (x : ℚ) :
    |decodeSample (encodeSample x) - clampSample x| < 2 / 32768 := by
  obtain ⟨hl, hr⟩ := clampSample_bounds x
  by_cases h : clampSample x < 0
  · obtain ⟨he, h1, h2⟩ := encodeSample_neg x h
    rw [he]
    unfold decodeSample
    have hle : clampSample x * 32768 ≤ ((⌈clampSample x * 32768⌉ : ℤ) : ℚ) :=
      Int.le_ceil _
    have hlt : ((⌈clampSample x * 32768⌉ : ℤ) : ℚ) < clampSample x * 32768 + 1 :=
      Int.ceil_lt_add_one _
    rw [show ((⌈clampSample x * 32768⌉ : ℤ) : ℚ) / 32768 - clampSample x
        = (((⌈clampSample x * 32768⌉ : ℤ) : ℚ) - clampSample x * 32768) / 32768 by ring]
    rw [abs_div, abs_of_pos (by norm_num : (0 : ℚ) < 32768),
        div_lt_div_iff₀ (by norm_num) (by norm_num)]
    have habs : |((⌈clampSample x * 32768⌉ : ℤ) : ℚ) - clampSample x * 32768| < 2 :=
      abs_lt.mpr ⟨by linarith, by linarith⟩
    nlinarith [habs]
  · obtain ⟨he, h1, h2⟩ := encodeSample_nonneg x h
    rw [he]
    unfold decodeSample
    have hs0 : 0 ≤ clampSample x := not_lt.mp h
    have hfl : ((⌊clampSample x * 32767⌋ : ℤ) : ℚ) ≤ clampSample x * 32767 :=
      Int.floor_le _
    have hfg : clampSample x * 32767 < ((⌊clampSample x * 32767⌋ : ℤ) : ℚ) + 1 :=
      Int.lt_floor_add_one _
    rw [show ((⌊clampSample x * 32767⌋ : ℤ) : ℚ) / 32768 - clampSample x
        = (((⌊clampSample x * 32767⌋ : ℤ) : ℚ) - clampSample x * 32768) / 32768 by ring]
    rw [abs_div, abs_of_pos (by norm_num : (0 : ℚ) < 32768),
        div_lt_div_iff₀ (by norm_num) (by norm_num)]
    have habs : |((⌊clampSample x * 32767⌋ : ℤ) : ℚ) - clampSample x * 32768| < 2 :=
      abs_lt.mpr ⟨by nlinarith, by nlinarith⟩
    nlinarith [habs]

theorem clampSample_nonpos (x : ℚ) (hx : x ≤ 0) : clampSample x ≤ 0 := by
  unfold clampSample
  exact max_le (by norm_num) (le_trans (min_le_right _ _) hx)

theorem roundTrip_bound_nonpos (x : ℚ) (hx : x ≤ 0) :
    |decodeSample (encodeSample x) - clampSample x| < 1 / 32768 := by
  have hs0 : clampSample x ≤ 0 := clampSample_nonpos x hx
  by_cases h : clampSample x < 0
  · obtain ⟨he, h1, h2⟩ := encodeSample_neg x h
    rw [he]
    unfold decodeSample
    have hle : clampSample x * 32768 ≤ ((⌈clampSample x * 32768⌉ : ℤ) : ℚ) :=
      Int.le_ceil _
    have hlt : ((⌈clampSample x * 32768⌉ : ℤ) : ℚ) < clampSample x * 32768 + 1 :=
      Int.ceil_lt_add_one _
    rw [show ((⌈clampSample x * 32768⌉ : ℤ) : ℚ) / 32768 - clampSample x
        = (((⌈clampSample x * 32768⌉ : ℤ) : ℚ) - clampSample x * 32768) / 32768 by ring]
    rw [abs_div, abs_of_pos (by norm_num : (0 : ℚ) < 32768),
        div_lt_div_iff₀ (by norm_num) (by norm_num)]
    have habs : |((⌈clampSample x * 32768⌉ : ℤ) : ℚ) - clampSample x * 32768| < 1 :=
      abs_lt.mpr ⟨by linarith, by linarith⟩
    nlinarith [habs]
  · have hs : clampSample x = 0 := le_antisymm hs0 (not_lt.mp h)
    obtain ⟨he, _, _⟩ := encodeSample_nonneg x h
    rw [he, hs]
    norm_num [decodeSample]

theorem bytes_roundtrip (e : ℤ) (h1 : -32768 ≤ e) (h2 : e ≤ 32767) :
    bytesToInt16 (e % 65536 % 256) (e % 65536 / 256) = e := by
  simp only [bytesToInt16]
  split <;> omega

theorem bytesToFloats_createPcmBlob (xs : List ℚ) :
    bytesToFloats (createPcmBlob xs) = some (xs.map fun x => decodeSample (encodeSample x)) := by
  induction xs with
  | nil => rfl
  | cons x t ih =>
    obtain ⟨h1, h2⟩ := encodeSample_bounds x
    have hjoin : createPcmBlob (x :: t)
        = (encodeSample x % 65536 % 256) :: (encodeSample x % 65536 / 256) :: createPcmBlob t := by
      simp [createPcmBlob, int16ToBytes]
    rw [hjoin]
    simp only [bytesToFloats]
    rw [ih, bytes_roundtrip _ h1 h2]
    simp [decodeSample]

/-! ### Helper lemmas for the playback scheduler -/

theorem playAudio_max (now dur : ℚ) (s : VoiceIfaceState) :
    (playAudio now dur s).nextStartTime = max now s.nextStartTime + dur ∧
    (playAudio now dur s).schedule = s.schedule ++ [(max now s.nextStartTime, dur)] := by
  simp only [playAudio]
  rcases le_or_lt now s.nextStartTime with hle | hlt
  · rw [if_neg (not_lt.mpr hle), max_eq_right hle]
    exact ⟨rfl, rfl⟩
  · rw [if_pos hlt, max_eq_left (le_of_lt hlt)]
    exact ⟨rfl, rfl⟩

theorem playAudio_inv (now dur : ℚ) (s : VoiceIfaceState) (hd : 0 ≤ dur)
    (hc : List.Chain' ChunkLe s.schedule)
    (hb : ∀ e ∈ s.schedule, e.1 + e.2 ≤ s.nextStartTime) :
    s.nextStartTime ≤ (playAudio now dur s).nextStartTime ∧
    List.Chain' ChunkLe (playAudio now dur s).schedule ∧
    ∀ e ∈ (playAudio now dur s).schedule, e.1 + e.2 ≤ (playAudio now dur s).nextStartTime := by
  obtain ⟨hnext, hsched⟩ := playAudio_max now dur s
  have hcs : s.nextStartTime ≤ max now s.nextStartTime := le_max_right _ _
  refine ⟨by rw [hnext]; linarith, ?_, ?_⟩
  · rw [hsched]
    refine List.Chain'.append hc (List.chain'_singleton _) ?_
    intro p hp q hq
    obtain ⟨hne, hlast⟩ := List.mem_getLast?_eq_getLast hp
    have hpmem : p ∈ s.schedule := hlast ▸ List.getLast_mem hne
    have hq1 : q = (max now s.nextStartTime, dur) := by
      have := hq
      simp at this
      exact this.symm
    rw [hq1]
    exact le_trans (hb p hpmem) hcs
  · intro e he
    rw [hsched] at he
    rw [hnext]
    rcases List.mem_append.mp he with hmem | hnew
    · exact le_trans (hb e hmem) (by linarith)
    · have : e = (max now s.nextStartTime, dur) := by simpa using hnew
      rw [this]
  
theorem runChunks_inv (evs : List (ℚ × ℚ)) (s : VoiceIfaceState)
    (hdur : ∀ e ∈ evs, 0 ≤ e.2)
    (hc : List.Chain' ChunkLe s.schedule)
    (hb : ∀ e ∈ s.schedule, e.1 + e.2 ≤ s.nextStartTime) :
    s.nextStartTime ≤ (runChunks evs s).nextStartTime ∧
    List.Chain' ChunkLe (runChunks evs s).schedule ∧
    ∀ e ∈ (runChunks evs s).schedule, e.1 + e.2 ≤ (runChunks evs s).nextStartTime := by
  induction evs generalizing s with
  | nil => exact ⟨le_refl _, hc, hb⟩
  | cons ev t ih =>
    have hd : 0 ≤ ev.2 := hdur ev (List.mem_cons_self _ _)
    have hdt : ∀ e ∈ t, 0 ≤ e.2 := fun e he => hdur e (List.mem_cons_of_mem _ he)
    obtain ⟨h1, h2, h3⟩ := playAudio_inv ev.1 ev.2 s hd hc hb
    have hstep : runChunks (ev :: t) s = runChunks t (playAudio ev.1 ev.2 s) := rfl
    obtain ⟨g1, g2, g3⟩ := ih (playAudio ev.1 ev.2 s) hdt h2 h3
    rw [hstep]
    exact ⟨le_trans h1 g1, g2, g3⟩

/-! ### Claim theorems -/

/-- C1: over any sequence of audio chunk events, each scheduled buffer
starts at max(now, PlaybackCursor) and the cursor advances by exactly that
buffer duration, so nextStartTime is monotonically non-decreasing and
consecutive scheduled buffers never overlap (every buffer ends no later
than the next one starts). -/
theorem c1_cursor_monotone_nonoverlap (evs : List (ℚ × ℚ)) (s : VoiceIfaceState)
    (hdur : ∀ e ∈ evs, 0 ≤ e.2)
    (hc : List.Chain' ChunkLe s.schedule)
    (hb : ∀ e ∈ s.schedule, e.1 + e.2 ≤ s.nextStartTime) :
    (∀ now dur t, (playAudio now dur t).nextStartTime = max now t.nextStartTime + dur ∧
       (playAudio now dur t).schedule = t.schedule ++ [(max now t.nextStartTime, dur)]) ∧
    s.nextStartTime ≤ (runChunks evs s).nextStartTime ∧
    List.Chain' ChunkLe (runChunks evs s).schedule := by
  obtain ⟨h1, h2, _⟩ := runChunks_inv evs s hdur hc hb
  exact ⟨playAudio_max, h1, h2⟩

/-- Witness for C1 at a concrete two-chunk burst starting from the fresh
component state. -/
theorem c1_witness :
    initialState.nextStartTime
      ≤ (runChunks [((0 : ℚ), (1 : ℚ)/2), ((1 : ℚ)/4, (1 : ℚ)/2)] initialState).nextStartTime ∧
    List.Chain' ChunkLe (runChunks [((0 : ℚ), (1 : ℚ)/2), ((1 : ℚ)/4, (1 : ℚ)/2)] initialState).schedule := by
  have h := c1_cursor_monotone_nonoverlap [((0 : ℚ), (1 : ℚ)/2), ((1 : ℚ)/4, (1 : ℚ)/2)] initialState
    (by intro e he; simp at he; rcases he with h | h <;> rw [h] <;> norm_num)
    (by simp [initialState])
    (by intro e he; simp [initialState] at he)
  exact ⟨h.2.1, h.2.2⟩

/-- C2 counterexample: at the in-range input sample 9999/10000 the encoded
value is 32763 and the decoded value 32763/32768 differs from the original
by more than one quantization step 1/32768, so the round trip is not
accurate to within one step as claimed. -/
theorem c2_counterexample :
    bytesToFloats (createPcmBlob [(9999 : ℚ)/10000]) = some [(32763 : ℚ)/32768] ∧
    (1 : ℚ)/32768 < (9999 : ℚ)/10000 - (32763 : ℚ)/32768 := by
  constructor
  · rw [bytesToFloats_createPcmBlob]
    have hcl : clampSample ((9999 : ℚ)/10000) = 9999/10000 := by
      unfold clampSample
      rw [min_eq_right (by norm_num), max_eq_right (by norm_num)]
    have h : ¬ clampSample ((9999 : ℚ)/10000) < 0 := by rw [hcl]; norm_num
    have he := (encodeSample_nonneg _ h).1
    rw [hcl] at he
    have hfl : ⌊(9999 : ℚ)/10000 * 32767⌋ = 32763 := by
      rw [Int.floor_eq_iff]
      constructor <;> norm_num
    simp only [List.map_cons, List.map_nil]
    rw [he, hfl]
    norm_num [decodeSample]
  · norm_num

/-- C2 amended: for every finite sequence of floats, encoding to 16-bit PCM
and decoding never fails and yields exactly the per-sample round trip, and
every decoded element is within TWO quantization steps (2/32768) of the
clamped original, within one step when the sample is non-positive; the
one-step bound of the original claim fails for positive samples (see the
counterexample). -/
theorem c2_roundtrip_amended :
    (∀ xs : List ℚ,
      bytesToFloats (createPcmBlob xs) = some (xs.map fun x => decodeSample (encodeSample x))) ∧
    (∀ x : ℚ, |decodeSample (encodeSample x) - clampSample x| < 2/32768) ∧
    (∀ x : ℚ, x ≤ 0 → |decodeSample (encodeSample x) - clampSample x| < 1/32768) :=
  ⟨bytesToFloats_createPcmBlob, roundTrip_bound, roundTrip_bound_nonpos⟩

/-- Witness for C2 amended at the concrete sample -1/3. -/
theorem c2_roundtrip_amended_witness :
    |decodeSample (encodeSample (-(1 : ℚ)/3)) - clampSample (-(1 : ℚ)/3)| < 1/32768 :=
  c2_roundtrip_amended.2.2 (-(1 : ℚ)/3) (by norm_num)

/-- C3: evaluation at a failing trace.  After startSession then stopSession
the cursor is 0 and no buffer is scheduled, yet a server message carrying a
one-sample audio payload delivered afterwards (at audio-context time 5)
still schedules a buffer and advances the cursor to 5 + 1/24000, because
handleServerMessage (lines 154-181) contains no is-this-still-the-active-
session guard and stopSession (lines 132-152) never closes the live
session.  This contradicts the claim that no post-stop event ever schedules
playback or mutates the cursor. -/
theorem c3_no_active_session_guard :
    (stopSession (startSession initialState)).nextStartTime = 0 ∧
    (stopSession (startSession initialState)).sources = 0 ∧
    (handleServerMessage 5 ⟨some [0, 0], none, none⟩ (stopSession (startSession initialState))).map
      (fun s => (s.nextStartTime, s.sources)) = Except.ok (5 + 1/24000, 1) ∧
    (5 : ℚ) + 1/24000 ≠ 0 :=
  ⟨rfl, rfl, rfl, by norm_num⟩

/-- C4: evaluation at a failing trace.  After a session schedules one buffer
(sources = 1, cursor = 0 + 1/24000), stopSession leaves the ActiveSourceSet
unchanged at cardinality 1 and leaves the cursor at its old nonzero value,
because stopSession (lines 132-152) never iterates sourcesRef, never clears
it, and never resets nextStartTimeRef.  This contradicts the claim that on
stop the set is cleared and the cursor is reset to zero. -/
theorem c4_stop_does_not_clear :
    (handleServerMessage 0 ⟨some [0, 0], none, none⟩ (startSession initialState)).map
      (fun s => ((stopSession s).sources, (stopSession s).nextStartTime))
      = Except.ok (1, 0 + 1/24000) ∧
    (0 : ℚ) + 1/24000 ≠ 0 :=
  ⟨rfl, by norm_num⟩

/-- C5: on every visualizer tick the activity state is Speaking iff the
output mean exceeds 10, else Listening iff the input mean exceeds 10, else
Idle; at output-mean 8 and input-mean 20 the state is Listening; and the
dominance flag (output-mean > 5) returned for rendering never influences
the activity state, which depends only on the two 10-thresholds. -/
theorem c5_activity_derivation (outE inE : ℚ) (s : VoiceIfaceState) :
    (renderTick outE inE s).1.voiceState = voiceStateOf outE inE ∧
    ((renderTick outE inE s).2 = true ↔ 5 < outE) ∧
    (voiceStateOf outE inE = .speaking ↔ 10 < outE) ∧
    (voiceStateOf outE inE = .listening ↔ ¬ 10 < outE ∧ 10 < inE) ∧
    (voiceStateOf outE inE = .idle ↔ ¬ 10 < outE ∧ ¬ 10 < inE) ∧
    voiceStateOf 8 20 = .listening ∧
    (∀ o1 o2 i1 i2 : ℚ, ((10 : ℚ) < o1 ↔ 10 < o2) → ((10 : ℚ) < i1 ↔ 10 < i2) →
      voiceStateOf o1 i1 = voiceStateOf o2 i2) := by
  refine ⟨rfl, by simp [renderTick], ?_, ?_, ?_, by norm_num [voiceStateOf], ?_⟩
  · unfold voiceStateOf
    split_ifs with h1 h2 <;> simp_all
  · unfold voiceStateOf
    split_ifs with h1 h2 <;> simp_all
  · unfold voiceStateOf
    split_ifs with h1 h2 <;> simp_all
  · intro o1 o2 i1 i2 h1 h2
    unfold voiceStateOf
    rw [if_congr h1 rfl rfl, if_congr h2 rfl rfl]

/-- Witness for C5: flipping the dominance flag (output mean 3 versus 8,
both below the Speaking threshold, on either side of the dominance
threshold 5) leaves the derived state equal, and the priority example
evaluates to Listening. -/
theorem c5_witness :
    voiceStateOf 3 20 = voiceStateOf 8 20 ∧ voiceStateOf 8 20 = Activity.listening :=
  ⟨(c5_activity_derivation 0 0 initialState).2.2.2.2.2.2 3 8 20 20 (by norm_num) Iff.rfl,
   (c5_activity_derivation 8 20 initialState).2.2.2.2.2.1⟩

/-- C6: evaluation at a failing trace.  A session started unmuted installs
an onaudioprocess closure that captured isMuted = false (line 91 reads the
render-time binding; the effect deps on line 49 never re-install it).
After the user toggles mute (isMuted = true), the next capture frame is
still analyzed AND still forwarded to the transport session, contradicting
the claim that no frame produced while muted is forwarded. -/
theorem c6_mute_not_a_transport_gate :
    (toggleMute (startSession initialState)).isMuted = true ∧
    (onaudioprocess (toggleMute (startSession initialState))).analyzedFrames
      = (toggleMute (startSession initialState)).analyzedFrames + 1 ∧
    (onaudioprocess (toggleMute (startSession initialState))).forwardedFrames
      = (toggleMute (startSession initialState)).forwardedFrames + 1 :=
  ⟨rfl, rfl, rfl⟩

/-- C7: evaluation at a failing trace.  A mode change while active runs the
effect cleanup (stopSession) and then startSession, but stopSession never
calls close() on the live session object (it only nulls sessionRef), so
after the restart two transport connections opened by this controller are
open at once, contradicting the claim that no two concurrently open
connections ever exist. -/
theorem c7_two_open_connections :
    (startSession initialState).openConnections = 1 ∧
    (stopSession (startSession initialState)).openConnections = 1 ∧
    (startSession (stopSession (startSession initialState))).openConnections = 2 :=
  ⟨rfl, rfl, rfl⟩

/-- C8: evaluation at a failing input.  A server message whose inline audio
payload decodes to an odd number of bytes makes the Int16Array constructor
on line 343 throw a RangeError; handleServerMessage has no try/catch and
the onmessage callback (lines 114-116) neither awaits nor catches the
rejected promise, so the failure escapes the asynchronous callback
boundary uncaught instead of being logged and skipped. -/
theorem c8_decode_error_escapes :
    handleServerMessage 0 ⟨some [0], none, none⟩ (startSession initialState)
      = Except.error "RangeError" :=
  rfl

/-- C9: the mute flag is invariant under every sequence of stop, start and
error transitions that contains no explicit user toggle. -/
theorem c9_mute_preserved (ops : List LifecycleOp) (s : VoiceIfaceState)
    (h : ∀ o ∈ ops, o ≠ LifecycleOp.toggle) :
    (applyOps ops s).isMuted = s.isMuted := by
  induction ops generalizing s with
  | nil => rfl
  | cons o t ih =>
    have ho : o ≠ LifecycleOp.toggle := h o (List.mem_cons_self _ _)
    have ht : ∀ x ∈ t, x ≠ LifecycleOp.toggle := fun x hx => h x (List.mem_cons_of_mem _ hx)
    show (applyOps t (applyOp o s)).isMuted = s.isMuted
    rw [ih (applyOp o s) ht]
    cases o with
    | stop => rfl
    | start => rfl
    | error => rfl
    | toggle => exact absurd rfl ho

/-- Witness for C9 at the concrete error-then-restart sequence
start; error; stop; start. -/
theorem c9_witness :
    (applyOps [LifecycleOp.start, LifecycleOp.error, LifecycleOp.stop, LifecycleOp.start]
      initialState).isMuted = initialState.isMuted :=
  c9_mute_preserved _ initialState (by decide)

/-- C10: when a server message carries a truthy output transcription delta,
the input delta (present or not) is discarded: the result equals handling
the message with no input delta at all; the applied output delta appends to
the previous text when the previous transcript source is the model and
otherwise (different source, or no previous transcript) replaces it. -/
theorem c10_transcription_priority (outT inT : Option String) (prev : Option Transcript)
    (h : jsTruthy outT = true) :
    handleTranscription outT inT prev = handleTranscription outT none prev ∧
    (∀ p, prev = some p → p.source = Source.ai →
      handleTranscription outT inT prev = some ⟨Source.ai, p.text ++ outT.getD ""⟩) ∧
    (∀ p, prev = some p → p.source ≠ Source.ai →
      handleTranscription outT inT prev = some ⟨Source.ai, outT.getD ""⟩) ∧
    (prev = none → handleTranscription outT inT prev = some ⟨Source.ai, outT.getD ""⟩) := by
  refine ⟨by simp only [handleTranscription, h, if_true], ?_, ?_, ?_⟩
  · intro p hp hsrc
    subst hp
    simp [handleTranscription, h, hsrc]
  · intro p hp hsrc
    subst hp
    simp [handleTranscription, h, beq_iff_eq, hsrc]
  · intro hp
    subst hp
    simp [handleTranscription, h]

/-- Witness for C10: a message carrying both deltas applied to a model
transcript appends only the output delta. -/
theorem c10_witness :
    handleTranscription (some "a") (some "b") (some ⟨Source.ai, "x"⟩)
      = some ⟨Source.ai, "x" ++ "a"⟩ := by
  have h := c10_transcription_priority (some "a") (some "b") (some ⟨Source.ai, "x"⟩) (by decide)
  exact h.2.1 ⟨Source.ai, "x"⟩ rfl rfl
